import Mathlib

/-!
Shallow embedding of the event-export core of
`src/snort3-plugins/event_exporter/ai_event_exporter.{h,cc}`.

The exporter's mutable state (`ai_event_exporter.h`, lines 94-102) is the
FIFO `event_buffer` (a `std::queue<std::string>`, head = oldest) and the two
lifetime counters `events_sent` and `events_dropped`.  Buffered events are
serialized JSON strings; their contents play no role in the buffering logic,
so the state is parametrised over the element type `α`.

The ZeroMQ socket is an external collaborator: a flush observes it only
through the outcome of each non-blocking `send` (`ai_event_exporter.cc`,
lines 322-341), which either returns true (sent), returns false
(would-block), or throws (error).  A flush call is therefore parametrised by
a function `sink : α → SendOutcome` giving the outcome the socket produces
for each item during that call; distinct calls may see distinct behaviours.
-/

namespace AIEventExporter

/-- Outcome of one non-blocking `zmq_socket->send(message, dontwait)`
attempt inside `flush_buffer` (lines 327-341): the send returns true,
returns false (would block), or throws an exception. -/
inductive SendOutcome where
  | sent
  | would_block
  | error

/-- `AIEventExporterConfig` (ai_event_exporter.h, lines 30-39). -/
structure AIEventExporterConfig where
  endpoint : String
  export_alerts : Bool
  export_flows : Bool
  export_stats : Bool
  min_severity : String
  buffer_size : Nat
  flush_interval : Nat

/-- The mutable exporter state (ai_event_exporter.h, lines 98-101):
`event_buffer` with its head the oldest element, plus the two counters. -/
structure ExporterState (α : Type) where
  event_buffer : List α
  events_sent : Nat
  events_dropped : Nat

/-- The constructor (ai_event_exporter.cc, lines 104-108): both counters
start at zero and the queue starts empty. -/
def initState (α : Type) : ExporterState α := ⟨[], 0, 0⟩

/-- Lines 298-305 of `send_event`: if `event_buffer.size() >= buffer_size`,
pop the oldest element and increment `events_dropped`; then push the new
element at the back.  `cap` is `config->buffer_size`. -/
def bufferPush (cap : Nat) (e : α) (st : ExporterState α) : ExporterState α :=
  let st1 :=
    if cap ≤ st.event_buffer.length then
      { st with
        event_buffer := st.event_buffer.tail
        events_dropped := st.events_dropped + 1 }
    else st
  { st1 with event_buffer := st1.event_buffer ++ [e] }

/-- The `while (!event_buffer.empty())` loop of `flush_buffer`
(lines 318-344), acting on (queue, events_sent, events_dropped):
* send returns true: `events_sent++`, pop, continue;
* send returns false (would block): `events_dropped++`, `break` — the
  `break` on line 334 exits before the `event_buffer.pop()` on line 343,
  so the item is NOT popped;
* send throws: `events_dropped++`, fall through to the pop, continue. -/
def flushLoop (sink : α → SendOutcome) :
    List α → Nat → Nat → List α × Nat × Nat
  | [], s, d => ([], s, d)
  | e :: rest, s, d =>
    match sink e with
    | .sent => flushLoop sink rest (s + 1) d
    | .would_block => (e :: rest, s, d + 1)
    | .error => flushLoop sink rest s (d + 1)

/-- `flush_buffer` (lines 314-345), with the mutex elided: the functional
effect of draining the queue against the sink behaviour `sink`. -/
def flush_buffer (sink : α → SendOutcome) (st : ExporterState α) :
    ExporterState α :=
  let r := flushLoop sink st.event_buffer st.events_sent st.events_dropped
  ⟨r.1, r.2.1, r.2.2⟩

/-- `send_event` (lines 294-312), with the mutex elided: drop-oldest push,
then `if (event_buffer.size() >= config->buffer_size / 10) flush_buffer()`
(integer division, as in C++). -/
def send_event (cap : Nat) (sink : α → SendOutcome) (e : α)
    (st : ExporterState α) : ExporterState α :=
  let st1 := bufferPush cap e st
  if cap / 10 ≤ st1.event_buffer.length then flush_buffer sink st1 else st1

/-- `tterm` (lines 154-157): the thread-termination hook calls
`flush_buffer()` unconditionally. -/
def tterm (sink : α → SendOutcome) (st : ExporterState α) : ExporterState α :=
  flush_buffer sink st

/-- One externally triggered operation on the exporter state: a
`send_event` call or a direct `flush_buffer` call, each carrying the sink
behaviour the socket exhibits during it. -/
inductive ExporterOp (α : Type) where
  | push (e : α) (sink : α → SendOutcome)
  | flushOp (sink : α → SendOutcome)

/-- Run one operation. -/
def runOp (cap : Nat) (st : ExporterState α) : ExporterOp α → ExporterState α
  | .push e sink => send_event cap sink e st
  | .flushOp sink => flush_buffer sink st

/-- Run a sequence of operations, oldest first. -/
def runOps (cap : Nat) (st : ExporterState α) :
    List (ExporterOp α) → ExporterState α
  | [] => st
  | op :: ops => runOps cap (runOp cap st op) ops

/-- Number of `send_event` operations (events pushed) in a trace. -/
def countPushes : List (ExporterOp α) → Nat
  | [] => 0
  | .push _ _ :: ops => countPushes ops + 1
  | .flushOp _ :: ops => countPushes ops

/-- A sink that always reports the same outcome. -/
def constSink (α : Type) (o : SendOutcome) : α → SendOutcome := fun _ => o

/-! ### The `eval` gating layer (lines 172-188)

`eval` exports an alert when
`config->export_alerts && p->active && p->active->get_action() > Active::ACT_PASS`
and exports a flow when
`config->export_flows && p->flow && p->flow->flow_state == Flow::FlowState::INSPECT`.
`Active::ActiveAction` and `Flow::FlowState` live in the host framework
(outside this repository); only the facts `eval` uses are modelled: the
action is an integer-ordered enum value compared against its `ACT_PASS`
element, and the flow state is an enum with an `INSPECT` element. -/

/-- The `Active::ACT_PASS` enum value of the host framework; `eval` only
compares actions against it with `>`, so its concrete value is irrelevant
and it is pinned to the bottom of the order. -/
def ACT_PASS : Nat := 0

/-- `Flow::FlowState` of the host framework; `eval` only tests equality
with `INSPECT`. -/
inductive FlowState where
  | setup
  | inspect
  | blockState
  | resetState
  | allow

/-- The fields of `snort::Packet` that `eval` reads: `p->active` (null or
carrying `get_action()`) and `p->flow` (null or carrying `flow_state`). -/
structure Packet where
  active : Option Nat
  flow : Option FlowState

/-- Line 178: whether `eval` reaches `export_alert(p)` — i.e. whether the
packet's alert event is serialized and enqueued via `send_event`. -/
def evalAlertExported (cfg : AIEventExporterConfig) (p : Packet) : Bool :=
  cfg.export_alerts &&
    match p.active with
    | some a => decide (ACT_PASS < a)
    | none => false

/-- Line 184: whether `eval` reaches `export_flow(p)`. -/
def evalFlowExported (cfg : AIEventExporterConfig) (p : Packet) : Bool :=
  cfg.export_flows &&
    match p.flow with
    | some FlowState.inspect => true
    | _ => false

/-- The module defaults (lines 61-67) with `min_severity` set to
`"medium"`, as in the scenario of the severity-gating claim. -/
def mediumConfig : AIEventExporterConfig :=
  ⟨"tcp://127.0.0.1:5555", true, true, false, "medium", 10000, 1000⟩

/-- A packet whose `active->get_action()` exceeds `ACT_PASS` — the shape
that makes line 178 fire.  The exporter attaches no severity to it: no
severity field is read anywhere on the alert path. -/
def blockedPacket : Packet := ⟨some 1, none⟩

/-! ### The mutex discipline (lines 296 and 316)

`send_event` and `flush_buffer` each open with
`lock_guard<mutex> lock(buffer_mutex)` on the same member
`buffer_mutex` (ai_event_exporter.h, line 99).  `std::mutex` is
non-recursive: a `lock` by the thread that already holds it does not
return (deadlock; undefined behaviour per the C++ standard).  The
lock-aware model threads a flag saying whether the calling thread already
holds `buffer_mutex`; an acquisition attempt while it is held yields
`none` (the stuck outcome), and `none` propagates. -/

/-- `flush_buffer` with its `lock_guard` (line 316) modelled: if the
calling thread already holds `buffer_mutex`, the acquisition never
returns. -/
def flushBufferLocked (sink : α → SendOutcome) (held : Bool)
    (st : ExporterState α) : Option (ExporterState α) :=
  if held then none
  else some (flush_buffer sink st)

/-- `send_event` with its `lock_guard` (line 296) modelled: the guard is
held for the whole body, so the inline `flush_buffer()` call on line 310
runs with `buffer_mutex` already held by this thread. -/
def sendEventLocked (cap : Nat) (sink : α → SendOutcome) (e : α)
    (held : Bool) (st : ExporterState α) : Option (ExporterState α) :=
  if held then none
  else
    let st1 := bufferPush cap e st
    if cap / 10 ≤ st1.event_buffer.length then
      flushBufferLocked sink true st1
    else some st1

/-! ### Concrete scenario material for the claims -/

/-- Push `e`, then flush against a saturated socket (send returns false),
then flush against a working socket.  With `cap = 100` the threshold
`100 / 10 = 10` is not reached by the single push, so no inline flush
runs. -/
def doubleCountOps (e : Nat) : List (ExporterOp Nat) :=
  [ .push e (constSink Nat .sent),
    .flushOp (constSink Nat .would_block),
    .flushOp (constSink Nat .sent) ]

/-- Iterated `bufferPush` (the lines 298-305 portion of `send_event`
alone, without the line 308 flush trigger): the bounded-buffer push
operation of the FIFO-eviction claim. -/
def pushAll (cap : Nat) (st : ExporterState α) : List α → ExporterState α
  | [] => st
  | e :: xs => pushAll cap (bufferPush cap e st) xs

/-! ### Instrumentation for counter accounting

`flushBlocks` counts, for one flush call, how many times the
would-block branch (line 333) runs: the loop breaks on its first
would-block, so the count is 0 or 1.  `traceBlocks` sums it over a trace,
flush-trigger calls inside `send_event` included.  These definitions are
measurement only; they appear in no executable path. -/

/-- 1 when the flush loop over this queue ends in the would-block branch,
0 when it drains or the queue is empty. -/
def flushBlocks (sink : α → SendOutcome) : List α → Nat
  | [] => 0
  | e :: rest =>
    match sink e with
    | .sent => flushBlocks sink rest
    | .would_block => 1
    | .error => flushBlocks sink rest

/-- Would-block encounters of one operation run from state `st`. -/
def opBlocks (cap : Nat) (st : ExporterState α) : ExporterOp α → Nat
  | .push e sink =>
    let st1 := bufferPush cap e st
    if cap / 10 ≤ st1.event_buffer.length then
      flushBlocks sink st1.event_buffer
    else 0
  | .flushOp sink => flushBlocks sink st.event_buffer

/-- Would-block encounters of a whole trace run from state `st`. -/
def traceBlocks (cap : Nat) (st : ExporterState α) :
    List (ExporterOp α) → Nat
  | [] => 0
  | op :: ops => opBlocks cap st op + traceBlocks cap (runOp cap st op) ops

/-- `events_sent + events_dropped + |event_buffer|`, the quantity the
counter-conservation claim tracks. -/
def tally (st : ExporterState α) : Nat :=
  st.events_sent + st.events_dropped + st.event_buffer.length

/-- A sink that accepts every item below 30 and saturates at 30. -/
def stepSink : Nat → SendOutcome :=
  fun x => if x < 30 then .sent else .would_block

/-- A sink for which sending item 1 throws and every other item is
accepted. -/
def errSink : Nat → SendOutcome :=
  fun x => if x = 1 then .error else .sent

/-! ## Helper lemmas -/

/-- The flush loop never lengthens the queue. -/
theorem flushLoop_length_le (sink : α → SendOutcome) (buf : List α) :
    ∀ s d : Nat, (flushLoop sink buf s d).1.length ≤ buf.length := by
  induction buf with
  | nil => intro s d; simp [flushLoop]
  | cons e rest ih =>
    intro s d
    simp only [flushLoop]
    cases h : sink e with
    | sent =>
      exact Nat.le_trans (ih (s + 1) d) (by simp)
    | would_block => simp
    | error =>
      exact Nat.le_trans (ih s (d + 1)) (by simp)

/-- Accounting for one flush loop: sent + dropped + remaining length grows
by exactly the number of would-block encounters (0 or 1). -/
theorem flushLoop_tally (sink : α → SendOutcome) (buf : List α) :
    ∀ s d : Nat,
      (flushLoop sink buf s d).2.1 + (flushLoop sink buf s d).2.2
          + (flushLoop sink buf s d).1.length
        = s + d + buf.length + flushBlocks sink buf := by
  induction buf with
  | nil => intro s d; simp [flushLoop, flushBlocks]
  | cons e rest ih =>
    intro s d
    simp only [flushLoop, flushBlocks]
    cases h : sink e with
    | sent =>
      rw [ih (s + 1) d]
      simp only [List.length_cons]
      omega
    | would_block =>
      simp only [List.length_cons]
      omega
    | error =>
      rw [ih s (d + 1)]
      simp only [List.length_cons]
      omega

/-- A flush against an always-accepting socket drains the queue and credits
every item to `events_sent`. -/
theorem flushLoop_all_sent (buf : List α) :
    ∀ s d : Nat,
      flushLoop (constSink α .sent) buf s d = ([], s + buf.length, d) := by
  induction buf with
  | nil => intro s d; simp [flushLoop]
  | cons e rest ih =>
    intro s d
    simp only [flushLoop, constSink]
    have harith : s + 1 + rest.length = s + (e :: rest).length := by
      simp only [List.length_cons]
      omega
    rw [ih (s + 1) d, harith]

/-- The flush loop on a queue whose prefix `pre` is accepted and whose next
item `e` saturates the socket: the prefix is sent and popped, `e` costs one
`events_dropped`, and `e` with everything behind it stays queued. -/
theorem flushLoop_block_at (sink : α → SendOutcome) (pre : List α) :
    ∀ (e : α) (post : List α) (s d : Nat),
      (∀ x ∈ pre, sink x = SendOutcome.sent) →
      sink e = SendOutcome.would_block →
      flushLoop sink (pre ++ e :: post) s d
        = (e :: post, s + pre.length, d + 1) := by
  induction pre with
  | nil =>
    intro e post s d _ hb
    simp [flushLoop, hb]
  | cons a pre ih =>
    intro e post s d hpre hb
    have ha : sink a = SendOutcome.sent := hpre a (List.mem_cons_self a pre)
    simp only [List.cons_append, flushLoop, ha, List.append_eq]
    have harith : s + 1 + pre.length = s + (a :: pre).length := by
      simp only [List.length_cons]
      omega
    rw [ih e post (s + 1) d (fun x hx => hpre x (List.mem_cons_of_mem a hx)) hb,
      harith]

/-- `bufferPush` on a full (or over-full) buffer: pop-oldest, count the
drop, append. -/
theorem bufferPush_eq_pos (cap : Nat) (e : α) (st : ExporterState α)
    (h : cap ≤ st.event_buffer.length) :
    bufferPush cap e st
      = ⟨st.event_buffer.tail ++ [e], st.events_sent,
          st.events_dropped + 1⟩ := by
  simp [bufferPush, h]

/-- `bufferPush` below capacity: plain append, no counter change. -/
theorem bufferPush_eq_neg (cap : Nat) (e : α) (st : ExporterState α)
    (h : ¬ cap ≤ st.event_buffer.length) :
    bufferPush cap e st
      = ⟨st.event_buffer ++ [e], st.events_sent, st.events_dropped⟩ := by
  simp [bufferPush, h]

/-- Accounting for one push: the tally always grows by exactly 1 (the
evicting branch trades one dropped buffer slot for one counted drop). -/
theorem bufferPush_tally (cap : Nat) (hcap : 1 ≤ cap) (e : α)
    (st : ExporterState α) : tally (bufferPush cap e st) = tally st + 1 := by
  by_cases h : cap ≤ st.event_buffer.length
  · have h1 : 1 ≤ st.event_buffer.length := Nat.le_trans hcap h
    rw [bufferPush_eq_pos cap e st h]
    simp only [tally, List.length_append, List.length_tail, List.length_cons,
      List.length_nil]
    omega
  · rw [bufferPush_eq_neg cap e st h]
    simp only [tally, List.length_append, List.length_cons, List.length_nil]
    omega

/-- A push never moves the occupancy above capacity. -/
theorem bufferPush_length_le (cap : Nat) (hcap : 1 ≤ cap) (e : α)
    (st : ExporterState α) (h : st.event_buffer.length ≤ cap) :
    (bufferPush cap e st).event_buffer.length ≤ cap := by
  by_cases hfull : cap ≤ st.event_buffer.length
  · have h1 : 1 ≤ st.event_buffer.length := Nat.le_trans hcap hfull
    rw [bufferPush_eq_pos cap e st hfull]
    simp only [List.length_append, List.length_tail, List.length_cons,
      List.length_nil]
    omega
  · rw [bufferPush_eq_neg cap e st hfull]
    simp only [List.length_append, List.length_cons, List.length_nil]
    omega

/-- A flush never lengthens the queue. -/
theorem flush_buffer_length_le (sink : α → SendOutcome)
    (st : ExporterState α) :
    (flush_buffer sink st).event_buffer.length
      ≤ st.event_buffer.length :=
  flushLoop_length_le sink st.event_buffer st.events_sent st.events_dropped

/-- Accounting for one flush call. -/
theorem flush_buffer_tally (sink : α → SendOutcome) (st : ExporterState α) :
    tally (flush_buffer sink st)
      = tally st + flushBlocks sink st.event_buffer := by
  have h := flushLoop_tally sink st.event_buffer st.events_sent
    st.events_dropped
  simp only [flush_buffer, tally]
  omega

/-- One operation keeps the occupancy within capacity. -/
theorem runOp_length_le (cap : Nat) (hcap : 1 ≤ cap) (st : ExporterState α)
    (op : ExporterOp α) (h : st.event_buffer.length ≤ cap) :
    (runOp cap st op).event_buffer.length ≤ cap := by
  cases op with
  | push e sink =>
    simp only [runOp, send_event]
    split
    · exact Nat.le_trans (flush_buffer_length_le sink (bufferPush cap e st))
        (bufferPush_length_le cap hcap e st h)
    · exact bufferPush_length_le cap hcap e st h
  | flushOp sink =>
    exact Nat.le_trans (flush_buffer_length_le sink st) h

/-- A trace keeps the occupancy within capacity. -/
theorem runOps_length_le (cap : Nat) (hcap : 1 ≤ cap) :
    ∀ (ops : List (ExporterOp α)) (st : ExporterState α),
      st.event_buffer.length ≤ cap →
      (runOps cap st ops).event_buffer.length ≤ cap := by
  intro ops
  induction ops with
  | nil => intro st h; simpa [runOps] using h
  | cons op ops ih =>
    intro st h
    simp only [runOps]
    exact ih (runOp cap st op) (runOp_length_le cap hcap st op h)

/-- Accounting for one `send_event` operation. -/
theorem runOp_tally_push (cap : Nat) (hcap : 1 ≤ cap)
    (st : ExporterState α) (e : α) (sink : α → SendOutcome) :
    tally (runOp cap st (.push e sink))
      = tally st + 1 + opBlocks cap st (.push e sink) := by
  simp only [runOp, send_event, opBlocks]
  split
  · rw [flush_buffer_tally, bufferPush_tally cap hcap]
  · rw [bufferPush_tally cap hcap]

/-- Accounting for one direct flush operation. -/
theorem runOp_tally_flush (cap : Nat) (st : ExporterState α)
    (sink : α → SendOutcome) :
    tally (runOp cap st (.flushOp sink))
      = tally st + opBlocks cap st (.flushOp sink) := by
  simp only [runOp, opBlocks]
  exact flush_buffer_tally sink st

/-- Accounting for a whole trace: the tally equals its initial value plus
one per push plus one per would-block encounter. -/
theorem runOps_tally (cap : Nat) (hcap : 1 ≤ cap) :
    ∀ (ops : List (ExporterOp α)) (st : ExporterState α),
      tally (runOps cap st ops)
        = tally st + countPushes ops + traceBlocks cap st ops := by
  intro ops
  induction ops with
  | nil => intro st; simp [runOps, countPushes, traceBlocks]
  | cons op ops ih =>
    intro st
    simp only [runOps, traceBlocks]
    rw [ih (runOp cap st op)]
    cases op with
    | push e sink =>
      rw [runOp_tally_push cap hcap st e sink]
      simp only [countPushes]
      omega
    | flushOp sink =>
      rw [runOp_tally_flush cap st sink]
      simp only [countPushes]
      omega

/-- Iterated pushes that all fit: plain appends, counters untouched. -/
theorem pushAll_no_evict (cap : Nat) :
    ∀ (xs : List α) (st : ExporterState α),
      st.event_buffer.length + xs.length ≤ cap →
      pushAll cap st xs
        = ⟨st.event_buffer ++ xs, st.events_sent, st.events_dropped⟩ := by
  intro xs
  induction xs with
  | nil => intro st _; simp [pushAll]
  | cons e xs ih =>
    intro st h
    have hlt : ¬ cap ≤ st.event_buffer.length := by
      simp only [List.length_cons] at h
      omega
    simp only [pushAll]
    rw [bufferPush_eq_neg cap e st hlt, ih]
    · simp
    · simp only [List.length_append, List.length_cons, List.length_nil]
      simp only [List.length_cons] at h
      omega

/-- `pushAll` splits over list append. -/
theorem pushAll_append (cap : Nat) :
    ∀ (xs ys : List α) (st : ExporterState α),
      pushAll cap st (xs ++ ys) = pushAll cap (pushAll cap st xs) ys := by
  intro xs
  induction xs with
  | nil => intro ys st; simp [pushAll]
  | cons e xs ih =>
    intro ys st
    simp only [List.cons_append, pushAll]
    exact ih ys (bufferPush cap e st)

/-- Pulling the tail through an append whose first list is non-empty. -/
theorem tail_append_of_ne_nil (xs ys : List α) (h : xs ≠ []) :
    (xs ++ ys).tail = xs.tail ++ ys := by
  cases xs with
  | nil => exact absurd rfl h
  | cons a xs => simp

/-! ## Claim theorems -/

/-- C1: the claim reads that `eval` applies the configured
minimum-severity floor — with `min_severity = medium`, a low-severity
alert is never enqueued while a high-severity one is.  In the code,
`min_severity` is parsed (line 81), defaulted (line 65) and displayed
(line 166), but the alert path of `eval` (line 178) never reads it: the
export decision is `export_alerts && p->active && get_action() > ACT_PASS`
and is therefore identical for every value of `min_severity`.  In
particular, under the medium configuration an eligible alert is enqueued
no matter how low its severity. -/
theorem severity_floor_not_applied :
    (∀ (cfg : AIEventExporterConfig) (s : String) (p : Packet),
        evalAlertExported { cfg with min_severity := s } p
          = evalAlertExported cfg p)
    ∧ evalAlertExported mediumConfig blockedPacket = true :=
  ⟨fun _ _ _ => rfl, rfl⟩

/-- C2 counterexample: one `send_event` (cap = 100, so the single push
stays below the flush threshold 10), then a flush against a saturated
socket, then a flush against a working one.  The trace ends with the
buffer drained to empty, one event was ever pushed, yet
`events_sent + events_dropped = 2`: the claimed conservation law fails. -/
theorem counter_conservation_counterexample :
    (runOps 100 (initState Nat) (doubleCountOps 7)).event_buffer = []
    ∧ countPushes (doubleCountOps 7) = 1
    ∧ (runOps 100 (initState Nat) (doubleCountOps 7)).events_sent
        + (runOps 100 (initState Nat) (doubleCountOps 7)).events_dropped
        = 2 :=
  ⟨rfl, rfl, rfl⟩

/-- C2 amended: for every trace (capacity at least 1),
`events_sent + events_dropped + occupancy` equals the number of events
ever pushed PLUS the number of would-block encounters during flushes —
each would-block increments `events_dropped` while leaving the item
queued (the line 334 `break` precedes the pop), so after a drain to empty
`events_sent + events_dropped` equals pushes plus would-block
encounters, not pushes alone. -/
theorem counter_conservation_amended (cap : Nat) (hcap : 1 ≤ cap)
    (ops : List (ExporterOp Nat)) :
    (runOps cap (initState Nat) ops).events_sent
        + (runOps cap (initState Nat) ops).events_dropped
        + (runOps cap (initState Nat) ops).event_buffer.length
      = countPushes ops + traceBlocks cap (initState Nat) ops := by
  have h := runOps_tally cap hcap ops (initState Nat)
  simpa [tally, initState] using h

theorem counter_conservation_amended_witness :
    1 ≤ 100
    ∧ (runOps 100 (initState Nat) (doubleCountOps 5)).events_sent
        + (runOps 100 (initState Nat) (doubleCountOps 5)).events_dropped
        + (runOps 100 (initState Nat) (doubleCountOps 5)).event_buffer.length
      = countPushes (doubleCountOps 5)
        + traceBlocks 100 (initState Nat) (doubleCountOps 5) :=
  ⟨by decide, counter_conservation_amended 100 (by decide) (doubleCountOps 5)⟩

/-- C3: an execution in which one pushed event increments both counters.
A single event is pushed; a flush against a saturated socket increments
`events_dropped` yet leaves the item queued (the `break` on line 334 runs
before the pop on line 343); a later flush against a working socket sends
the very same item and increments `events_sent`.  `events_dropped` counts
would-block encounters, not events actually lost. -/
theorem would_block_double_count :
    (runOps 100 (initState Nat)
        [ .push 9 (constSink Nat .sent) ]).event_buffer = [9]
    ∧ (runOps 100 (initState Nat)
        [ .push 9 (constSink Nat .sent) ]).events_sent = 0
    ∧ (runOps 100 (initState Nat)
        [ .push 9 (constSink Nat .sent) ]).events_dropped = 0
    ∧ (runOps 100 (initState Nat)
        [ .push 9 (constSink Nat .sent),
          .flushOp (constSink Nat .would_block) ]).event_buffer = [9]
    ∧ (runOps 100 (initState Nat)
        [ .push 9 (constSink Nat .sent),
          .flushOp (constSink Nat .would_block) ]).events_dropped = 1
    ∧ (runOps 100 (initState Nat)
        [ .push 9 (constSink Nat .sent),
          .flushOp (constSink Nat .would_block),
          .flushOp (constSink Nat .sent) ]).event_buffer = []
    ∧ (runOps 100 (initState Nat)
        [ .push 9 (constSink Nat .sent),
          .flushOp (constSink Nat .would_block),
          .flushOp (constSink Nat .sent) ]).events_sent = 1
    ∧ (runOps 100 (initState Nat)
        [ .push 9 (constSink Nat .sent),
          .flushOp (constSink Nat .would_block),
          .flushOp (constSink Nat .sent) ]).events_dropped = 1 :=
  ⟨rfl, rfl, rfl, rfl, rfl, rfl, rfl, rfl⟩

/-- C5: for every sequence of operations from the empty initial state the
occupancy stays at most `cap`; a push onto a full buffer pops exactly the
single oldest item (counting one drop) and then appends the new item; a
push below capacity appends without touching the counters — a push is
never rejected. -/
theorem capacity_invariant (cap : Nat) (hcap : 1 ≤ cap) :
    (∀ ops : List (ExporterOp Nat),
        (runOps cap (initState Nat) ops).event_buffer.length ≤ cap)
    ∧ (∀ (st : ExporterState Nat) (e : Nat),
        st.event_buffer.length = cap →
        bufferPush cap e st
          = ⟨st.event_buffer.tail ++ [e], st.events_sent,
              st.events_dropped + 1⟩)
    ∧ (∀ (st : ExporterState Nat) (e : Nat),
        st.event_buffer.length < cap →
        bufferPush cap e st
          = ⟨st.event_buffer ++ [e], st.events_sent, st.events_dropped⟩) := by
  refine ⟨?_, ?_, ?_⟩
  · intro ops
    exact runOps_length_le cap hcap ops (initState Nat) (by simp [initState])
  · intro st e h
    exact bufferPush_eq_pos cap e st (le_of_eq h.symm)
  · intro st e h
    exact bufferPush_eq_neg cap e st (not_le.mpr h)

theorem capacity_invariant_witness :
    1 ≤ 100
    ∧ (runOps 100 (initState Nat) (doubleCountOps 3)).event_buffer.length
        ≤ 100 :=
  ⟨by decide, (capacity_invariant 100 (by decide)).1 (doubleCountOps 3)⟩

/-- C6: if during a flush the socket accepts every item of the prefix
`pre` and saturates (send returns false) on the next item `e`, the
prefix is sent and popped, `e` costs exactly one `events_dropped`, and
`e` together with everything queued behind it remains buffered — the
flush returns without attempting the later items. -/
theorem would_block_halts_flush (sink : Nat → SendOutcome)
    (pre post : List Nat) (e : Nat) (s d : Nat)
    (hsent : ∀ x ∈ pre, sink x = SendOutcome.sent)
    (hblock : sink e = SendOutcome.would_block) :
    flush_buffer sink ⟨pre ++ e :: post, s, d⟩
      = ⟨e :: post, s + pre.length, d + 1⟩ := by
  simp only [flush_buffer]
  rw [flushLoop_block_at sink pre e post s d hsent hblock]

theorem would_block_halts_flush_witness :
    (∀ x ∈ [10, 20], stepSink x = SendOutcome.sent)
    ∧ stepSink 30 = SendOutcome.would_block
    ∧ flush_buffer stepSink ⟨[10, 20] ++ 30 :: [40, 50], 3, 4⟩
        = ⟨30 :: [40, 50], 3 + [10, 20].length, 4 + 1⟩ :=
  ⟨by intro x hx; fin_cases hx <;> rfl, rfl,
    would_block_halts_flush stepSink [10, 20] [40, 50] 30 3 4
      (by intro x hx; fin_cases hx <;> rfl) rfl⟩

/-- C7: `send_event` flushes synchronously, in the same call, exactly when
the occupancy after the push reaches `cap / 10` (integer division); below
the threshold the call returns with the push alone; and the `tterm`
shutdown hook is an unconditional `flush_buffer` call.  Against an
always-accepting socket, a triggered call hands the whole queue to the
transport before returning. -/
theorem flush_trigger_threshold (cap : Nat) (sink : Nat → SendOutcome) :
    (∀ (st : ExporterState Nat) (e : Nat),
        cap / 10 ≤ (bufferPush cap e st).event_buffer.length →
        send_event cap sink e st = flush_buffer sink (bufferPush cap e st))
    ∧ (∀ (st : ExporterState Nat) (e : Nat),
        (bufferPush cap e st).event_buffer.length < cap / 10 →
        send_event cap sink e st = bufferPush cap e st)
    ∧ (∀ st : ExporterState Nat, tterm sink st = flush_buffer sink st)
    ∧ (∀ (st : ExporterState Nat) (e : Nat),
        cap / 10 ≤ (bufferPush cap e st).event_buffer.length →
        (send_event cap (constSink Nat .sent) e st).event_buffer = []) := by
  refine ⟨?_, ?_, fun _ => rfl, ?_⟩
  · intro st e h
    simp only [send_event]
    rw [if_pos h]
  · intro st e h
    simp only [send_event]
    rw [if_neg (not_le.mpr h)]
  · intro st e h
    simp only [send_event]
    rw [if_pos h]
    simp [flush_buffer, flushLoop_all_sent]

theorem flush_trigger_threshold_witness :
    100 / 10
        ≤ (bufferPush 100 5
            (⟨[0, 1, 2, 3, 4, 5, 6, 7, 8], 0, 0⟩ : ExporterState Nat)).event_buffer.length
    ∧ send_event 100 (constSink Nat .would_block) 5 ⟨[0, 1, 2, 3, 4, 5, 6, 7, 8], 0, 0⟩
        = flush_buffer (constSink Nat .would_block)
            (bufferPush 100 5 ⟨[0, 1, 2, 3, 4, 5, 6, 7, 8], 0, 0⟩) :=
  ⟨by decide,
    (flush_trigger_threshold 100 (constSink Nat .would_block)).1
      ⟨[0, 1, 2, 3, 4, 5, 6, 7, 8], 0, 0⟩ 5 (by decide)⟩

/-- C8: if the transport send of the front item throws (the catch block,
lines 337-341), `events_dropped` is incremented for it, the item is
popped (execution falls through to the line 343 pop), and the flush loop
continues with the rest of the queue — the failed item never stalls the
items behind it. -/
theorem error_pops_and_continues (sink : Nat → SendOutcome) (e : Nat)
    (rest : List Nat) (s d : Nat) (h : sink e = SendOutcome.error) :
    flush_buffer sink ⟨e :: rest, s, d⟩
      = flush_buffer sink ⟨rest, s, d + 1⟩ := by
  simp only [flush_buffer, flushLoop, h]

theorem error_pops_and_continues_witness :
    errSink 1 = SendOutcome.error
    ∧ flush_buffer errSink ⟨1 :: [2, 3], 0, 0⟩
        = flush_buffer errSink ⟨[2, 3], 0, 0 + 1⟩ :=
  ⟨rfl, error_pops_and_continues errSink 1 [2, 3] 0 0 rfl⟩

/-- C9: pushing `cap + 1` items into the bounded buffer (the lines
298-305 push operation) from empty leaves exactly the items after the
first, in their original order, with the single oldest item evicted and
counted in `events_dropped`: evictions remove from the front only,
oldest first. -/
theorem fifo_eviction (cap : Nat) (xs : List Nat) (hcap : 1 ≤ cap)
    (hlen : xs.length = cap + 1) :
    pushAll cap (initState Nat) xs = ⟨xs.tail, 0, 1⟩ := by
  have hne : xs ≠ [] := by
    intro h
    rw [h] at hlen
    simp at hlen
  have hdec : xs.dropLast ++ [xs.getLast hne] = xs :=
    List.dropLast_append_getLast hne
  have hdl : xs.dropLast.length = cap := by
    rw [List.length_dropLast, hlen]
    omega
  have hdlne : xs.dropLast ≠ [] := by
    intro h
    rw [h] at hdl
    simp at hdl
    omega
  have h1 : pushAll cap (initState Nat) xs.dropLast
      = ⟨xs.dropLast, 0, 0⟩ := by
    have := pushAll_no_evict cap xs.dropLast (initState Nat)
      (by simp [initState, hdl])
    simpa [initState] using this
  calc pushAll cap (initState Nat) xs
      = pushAll cap (initState Nat) (xs.dropLast ++ [xs.getLast hne]) := by
        rw [hdec]
    _ = pushAll cap (pushAll cap (initState Nat) xs.dropLast)
          [xs.getLast hne] := pushAll_append cap xs.dropLast _ _
    _ = pushAll cap (⟨xs.dropLast, 0, 0⟩ : ExporterState Nat)
          [xs.getLast hne] := by rw [h1]
    _ = bufferPush cap (xs.getLast hne) ⟨xs.dropLast, 0, 0⟩ := rfl
    _ = ⟨xs.dropLast.tail ++ [xs.getLast hne], 0, 0 + 1⟩ :=
        bufferPush_eq_pos cap _ _ (by simp [hdl])
    _ = ⟨xs.tail, 0, 1⟩ := by
        rw [← tail_append_of_ne_nil xs.dropLast [xs.getLast hne] hdlne, hdec]

theorem fifo_eviction_witness :
    1 ≤ 3 ∧ ([5, 6, 7, 8] : List Nat).length = 3 + 1
    ∧ pushAll 3 (initState Nat) [5, 6, 7, 8] = ⟨[6, 7, 8], 0, 1⟩ :=
  ⟨by decide, by decide, fifo_eviction 3 [5, 6, 7, 8] (by decide) (by decide)⟩

/-- C10: the claim reads that push, threshold check and the inline flush
run under one exclusive critical section.  In the code, `send_event`
holds `buffer_mutex` (its line 296 `lock_guard`) for its entire body, and
the `flush_buffer()` it invokes on line 310 begins with its own
`lock_guard` on the very same non-recursive `std::mutex` (line 316).  In
the lock-aware model, whenever the threshold condition fires the inline
flush attempts a second acquisition of a mutex the thread already holds
and gets stuck: the call never completes. -/
theorem inline_flush_deadlocks (cap : Nat) (sink : Nat → SendOutcome)
    (e : Nat) (st : ExporterState Nat)
    (hthr : cap / 10 ≤ (bufferPush cap e st).event_buffer.length) :
    sendEventLocked cap sink e false st = none := by
  simp only [sendEventLocked, flushBufferLocked]
  rw [if_neg Bool.false_ne_true, if_pos hthr]
  simp

theorem inline_flush_deadlocks_witness :
    100 / 10
        ≤ (bufferPush 100 0
            (⟨[0, 1, 2, 3, 4, 5, 6, 7, 8], 0, 0⟩ : ExporterState Nat)).event_buffer.length
    ∧ sendEventLocked 100 (constSink Nat .sent) 0 false ⟨[0, 1, 2, 3, 4, 5, 6, 7, 8], 0, 0⟩
        = none :=
  ⟨by decide,
    inline_flush_deadlocks 100 (constSink Nat .sent) 0
      ⟨[0, 1, 2, 3, 4, 5, 6, 7, 8], 0, 0⟩ (by decide)⟩

end AIEventExporter
